import Mathlib

/-!
# Verification of the datawash chat question/answer extraction engine

A shallow embedding of the session segmentation and question/answer matching
engine of the datawash repository (`data_cleaner.py`, `chat_qa_processor.py`),
together with theorems settling the behavioural claims about it.

Conventions of the embedding:
* Python strings are Lean `String`s; Python `str.split()` (whitespace
  tokenisation, empty tokens dropped) and `str.lower()` (ASCII case folding,
  which is the identity on the Chinese text the tables consist of) are
  re-implemented as structural recursions over the character list.
* Python floats are modelled as exact rationals `ℚ`; the constants 0.6, 0.4,
  0.3 of the source become 3/5, 2/5, 3/10.
* `datetime` values are modelled as `Option Int` (a point in time in abstract
  units); `none` stands for a value that is not a well-formed datetime.
* Regex patterns of the source that are plain alternations of literal keywords
  (`re.search('k1|k2|...', t)`) are modelled as "some keyword is a substring".
-/

namespace Datawash

/-! ## String utilities (Python `in`, `startswith`, `lower`, `split`) -/

/-- Does the first list occur as a prefix of the second (`List Char` version,
used to build the substring test)? -/
def startsL : List Char → List Char → Bool
  | [], _ => true
  | _ :: _, [] => false
  | a :: as, b :: bs => a == b && startsL as bs

/-- Does `needle` occur as a contiguous sublist of the second argument? -/
def subL (needle : List Char) : List Char → Bool
  | [] => needle.isEmpty
  | b :: bs => startsL needle (b :: bs) || subL needle bs

/-- Python `needle in hay` for strings (substring containment). -/
def containsSub (hay needle : String) : Bool :=
  subL needle.data hay.data

/-- Python `hay.startswith(needle)`. -/
def pyStartsWith (hay needle : String) : Bool :=
  startsL needle.data hay.data

/-- Python `s.lower()` (ASCII case folding; identity on CJK characters). -/
def lowerStr (s : String) : String :=
  String.mk (s.data.map Char.toLower)

/-- Helper for `pySplit`: walk the characters, `acc` holds the current token
reversed. -/
def splitWsAux : List Char → List Char → List String
  | [], acc => if acc.isEmpty then [] else [String.mk acc.reverse]
  | c :: rest, acc =>
    if c.isWhitespace then
      (if acc.isEmpty then [] else [String.mk acc.reverse]) ++ splitWsAux rest []
    else splitWsAux rest (c :: acc)

/-- Python `s.split()`: split on whitespace runs, dropping empty tokens. -/
def pySplit (s : String) : List String :=
  splitWsAux s.data []

/-- The token set of a text as used by `calculate_semantic_similarity`:
`set(text.lower().split())`.  A duplicate-free list models the Python set. -/
def wordsOf (t : String) : List String :=
  (pySplit (lowerStr t)).dedup

/-! ## Static tables of `DataCleaner.__init__` -/

/-- `self.context_keywords` (lines 29–44 of `data_cleaner.py`). -/
def context_keywords : List (String × List String) := [
  ("支付问题", ["支付", "付款", "退款", "转账", "余额", "费用", "收费", "价格", "金额", "支付方式", "支付宝", "微信支付"]),
  ("物流问题", ["快递", "物流", "配送", "发货", "收货", "运输", "送达", "派送", "包裹", "快递费", "运费"]),
  ("账户问题", ["登录", "注册", "密码", "账号", "认证", "实名", "身份", "绑定", "解绑", "注销", "挂失", "找回"]),
  ("商品问题", ["商品", "产品", "价格", "质量", "规格", "型号", "品牌", "库存", "缺货", "断货", "下架", "上架"]),
  ("订单问题", ["订单", "下单", "取消", "修改", "查询", "跟踪", "状态", "进度", "确认", "取消", "退款", "退货"]),
  ("服务问题", ["服务", "客服", "售后", "维修", "保修", "保养", "安装", "调试", "培训", "指导", "咨询"]),
  ("系统问题", ["系统", "软件", "程序", "应用", "APP", "网页", "网站", "网络", "连接", "卡顿", "崩溃", "错误"]),
  ("安全隐私", ["安全", "隐私", "保护", "泄露", "加密", "解密", "授权", "权限", "验证", "认证", "实名"]),
  ("优惠活动", ["优惠", "活动", "促销", "折扣", "满减", "券", "红包", "积分", "会员", "VIP", "特权"]),
  ("投诉建议", ["投诉", "建议", "反馈", "意见", "举报", "维权", "纠纷", "争议", "问题", "不满", "差评"]),
  ("ETC业务", ["etc", "高速公路", "通行费", "收费站", "etc卡", "etc设备"]),
  ("车辆相关", ["车牌", "车辆", "汽车", "驾照", "驾驶证", "行驶证", "违章", "年检", "保险"]),
  ("票据问题", ["发票", "票据", "收据", "报销", "凭证", "单据"]),
  ("紧急问题", ["紧急", "急", "快", "立即", "马上", "尽快", "加急", "加急处理"])]

/-- `self.keyword_weights` (lines 153–168): per-tag weights.  These weights
are defined by the source but are not consumed by any other function. -/
def keyword_weights : List (String × ℚ) := [
  ("支付问题", 6/5), ("物流问题", 11/10), ("账户问题", 13/10), ("商品问题", 1),
  ("订单问题", 6/5), ("服务问题", 11/10), ("系统问题", 1), ("安全隐私", 13/10),
  ("优惠活动", 4/5), ("投诉建议", 6/5), ("ETC业务", 7/5), ("车辆相关", 6/5),
  ("票据问题", 11/10), ("紧急问题", 3/2)]

/-- `self.importance_weights` (lines 171–191): per-token weights used by
`calculate_semantic_similarity` (membership only; the weight values are never
read by it). -/
def importance_weights : List (String × ℚ) := [
  ("etc", 2), ("支付", 9/5), ("退款", 9/5), ("账户", 17/10), ("密码", 17/10),
  ("安全", 8/5), ("紧急", 8/5), ("故障", 3/2), ("错误", 3/2), ("问题", 7/5),
  ("异常", 7/5), ("无法", 7/5), ("不能", 7/5), ("怎么办", 13/10), ("如何", 13/10),
  ("怎么", 13/10), ("为什么", 13/10), ("原因", 13/10), ("解决", 13/10)]

/-- The `tag_rules` dict of `extract_tags` (lines 374–385); each regex is an
alternation of the listed literal keywords. -/
def tag_rules : List (String × List String) := [
  ("支付问题", ["支付", "付款", "退款", "转账", "余额", "费用", "收费", "价格", "金额", "支付方式", "支付宝", "微信支付"]),
  ("物流问题", ["快递", "物流", "配送", "发货", "收货", "运输", "送达", "派送", "包裹", "快递费", "运费"]),
  ("账户问题", ["登录", "注册", "密码", "账号", "认证", "实名", "身份", "绑定", "解绑", "注销", "挂失", "找回"]),
  ("商品问题", ["商品", "产品", "价格", "质量", "规格", "型号", "品牌", "库存", "缺货", "断货", "下架", "上架"]),
  ("订单问题", ["订单", "下单", "取消", "修改", "查询", "跟踪", "状态", "进度", "确认", "取消", "退款", "退货"]),
  ("服务问题", ["服务", "客服", "售后", "维修", "保修", "保养", "安装", "调试", "培训", "指导", "咨询"]),
  ("系统问题", ["系统", "软件", "程序", "应用", "APP", "网页", "网站", "网络", "连接", "卡顿", "崩溃", "错误"]),
  ("安全隐私", ["安全", "隐私", "保护", "泄露", "加密", "解密", "授权", "权限", "验证", "认证", "实名"]),
  ("优惠活动", ["优惠", "活动", "促销", "折扣", "满减", "券", "红包", "积分", "会员", "VIP", "特权"]),
  ("投诉建议", ["投诉", "建议", "反馈", "意见", "举报", "维权", "纠纷", "争议", "问题", "不满", "差评"])]

/-- The four special tag tests appended after the `tag_rules` loop in
`extract_tags` (lines 395–405), in source order. -/
def special_tag_rules : List (String × List String) := [
  ("ETC业务", ["etc", "高速公路", "通行费", "收费站", "etc卡", "etc设备"]),
  ("车辆相关", ["车牌", "车辆", "汽车", "驾照", "驾驶证", "行驶证", "违章", "年检", "保险"]),
  ("票据问题", ["发票", "票据", "收据", "报销", "凭证", "单据"]),
  ("紧急问题", ["紧急", "急", "快", "立即", "马上", "尽快", "加急", "加急处理"])]

/-- Does the (lowercased) text match a tag rule, i.e. does some keyword of the
rule occur in it (`re.search` on an alternation of literals)? -/
def matchesRule (t : String) (r : String × List String) : Bool :=
  r.2.any (fun k => containsSub t k)

/-! ## `DataCleaner` scoring functions -/

/-- `DataCleaner.extract_tags` (lines 369–408): the tag of every rule whose
pattern matches the lowercased text, the ten dict rules first, then the four
special rules, in source order.  Each tag is appended at most once, so the
final `list(set(tags))` deduplication of the source is a no-op up to order,
and all consumers of the result use it as a set. -/
def extract_tags (text : String) : List String :=
  (((tag_rules ++ special_tag_rules).filter (matchesRule (lowerStr text)))).map (·.1)

/-- `DataCleaner.is_new_session` (lines 410–416).  `none` models an argument
that is not a well-formed `datetime` instance; times are in seconds, matching
`total_seconds() / 60` compared against the timeout in minutes. -/
def is_new_session (current_time last_time : Option Int) (timeout_minutes : Int) : Bool :=
  match current_time, last_time with
  | some c, some l => decide ((((c - l : Int) : ℚ)) / 60 > (timeout_minutes : ℚ))
  | _, _ => true

/-- `DataCleaner.calculate_semantic_similarity` (lines 418–453):
`0.6 * jaccard + 0.4 * keyword_similarity` over the lowercased whitespace
token sets, with early exits for an empty text and an empty union. -/
def calculate_semantic_similarity (text1 text2 : String) : ℚ :=
  if text1 = "" ∨ text2 = "" then 0
  else
    let words1 := wordsOf text1
    let words2 := wordsOf text2
    let intersection := (words1.filter (fun w => words2.contains w)).length
    let union := words1.length + (words2.filter (fun w => !words1.contains w)).length
    if union = 0 then 0
    else
      let jaccard : ℚ := (intersection : ℚ) / (union : ℚ)
      let t1key := words1.filter (fun w => importance_weights.any (fun p => p.1 == w))
      let t2key := words2.filter (fun w => importance_weights.any (fun p => p.1 == w))
      let total_keywords := t1key.length + t2key.length
      let keyword_matches :=
        (t1key.filter (fun w => words2.contains w)).length +
        (t2key.filter (fun w => words1.contains w)).length
      let keyword_similarity : ℚ :=
        if 0 < total_keywords then (keyword_matches : ℚ) / (total_keywords : ℚ) else 0
      3/5 * jaccard + 2/5 * keyword_similarity

/-- The tag-overlap component of `calculate_context_match` (lines 457–463):
`len(matching_tags) / max(len(question_tags), len(answer_tags))` when either
side has a tag, else 0. -/
def tag_match_score (question answer : String) : ℚ :=
  let question_tags := extract_tags question
  let answer_tags := extract_tags answer
  let matching_tags := question_tags.filter (fun t => answer_tags.contains t)
  if question_tags ≠ [] ∨ answer_tags ≠ [] then
    (matching_tags.length : ℚ) / ((max question_tags.length answer_tags.length : ℕ) : ℚ)
  else 0

/-- The keyword-category component of `calculate_context_match`
(lines 465–479): category sets are built by raw (not lowercased) substring
tests against `context_keywords`, then scored like the tag component. -/
def keyword_match_score (question answer : String) : ℚ :=
  let question_keywords :=
    (context_keywords.filter (fun c => c.2.any (fun k => containsSub question k))).map (·.1)
  let answer_keywords :=
    (context_keywords.filter (fun c => c.2.any (fun k => containsSub answer k))).map (·.1)
  let matching_keywords := question_keywords.filter (fun t => answer_keywords.contains t)
  if question_keywords ≠ [] ∨ answer_keywords ≠ [] then
    (matching_keywords.length : ℚ) /
      ((max question_keywords.length answer_keywords.length : ℕ) : ℚ)
  else 0

/-- `DataCleaner.calculate_context_match` (lines 455–491):
`0.4 * tag + 0.3 * keyword + 0.3 * semantic`. -/
def calculate_context_match (question answer : String) : ℚ :=
  2/5 * tag_match_score question answer
    + 3/10 * keyword_match_score question answer
    + 3/10 * calculate_semantic_similarity question answer

/-! ## `ChatQAProcessor` data model -/

/-- The `'type'` field of a session-message dict (`'question'`/`'answer'`). -/
inductive MType where
  | question : MType
  | answer : MType
deriving Repr, DecidableEq, BEq

/-- A session-message dict as appended by `_process_qa_pairs`:
`{'type', 'content', 'time', 'source'}`.  `time = none` models a timestamp
that is not a well-formed datetime (e.g. `NaT`). -/
structure SMsg where
  typ : MType
  content : String
  time : Option Int
  source : String
deriving Repr, DecidableEq

/-- The QA-pair dict returned by `_merge_session_messages`.  The source reads
the `'session_id'` key with `.get`, and no message dict ever sets it, so that
field is always `None`; it is reproduced as the constant `none`. -/
structure QAPair where
  customer_id : Option String
  service_id : Option String
  question : String
  answer : String
  time : Option Int
  session_id : Option String
  tags : List String
deriving Repr, DecidableEq

/-! ## Stable sorts used by the processor

Python `list.sort` is stable; both sorts below are stable insertion sorts over
the same keys, hence produce the same list as the source. -/

/-- Strict comparison of the `'time'` fields used by
`messages.sort(key=lambda x: x['time'])`.  Comparisons involving a malformed
timestamp are `false` (mirroring `NaT` comparisons), so such messages keep
their relative positions. -/
def timeLt : Option Int → Option Int → Bool
  | some a, some b => a < b
  | _, _ => false

/-- Stable insertion for the ascending sort by `'time'`. -/
def insertByTime (m : SMsg) : List SMsg → List SMsg
  | [] => [m]
  | x :: xs => if timeLt x.time m.time then x :: insertByTime m xs else m :: x :: xs

/-- `messages.sort(key=lambda x: x['time'])`: stable ascending sort. -/
def sortByTime : List SMsg → List SMsg
  | [] => []
  | x :: xs => insertByTime x (sortByTime xs)

/-- Stable insertion for the descending sort by content length. -/
def insertByLenDesc (m : SMsg) : List SMsg → List SMsg
  | [] => [m]
  | x :: xs =>
    if m.content.length < x.content.length then x :: insertByLenDesc m xs
    else m :: x :: xs

/-- `questions.sort(key=lambda x: len(x['content']), reverse=True)`: stable
descending sort by content length. -/
def sortByLenDesc : List SMsg → List SMsg
  | [] => []
  | x :: xs => insertByLenDesc x (sortByLenDesc xs)

/-! ## `ChatQAProcessor` selection functions -/

/-- The questions of a (sorted) session message list. -/
def questionsOf (ms : List SMsg) : List SMsg :=
  ms.filter (fun m => m.typ == MType.question)

/-- The answers of a (sorted) session message list. -/
def answersOf (ms : List SMsg) : List SMsg :=
  ms.filter (fun m => m.typ == MType.answer)

/-- The total similarity score of a candidate against every valid candidate
(itself included), summed in list order — the inner sum of
`_select_representative_question`. -/
def simTotalOf (valid : List SMsg) (q : SMsg) : ℚ :=
  (valid.map (fun other => calculate_semantic_similarity q.content other.content)).sum

/-- `ChatQAProcessor._select_representative_question` (lines 213–237): sort by
length descending, keep questions longer than 5 characters (fall back to the
longest question), then scan for the candidate maximising the sum of its
similarity against every valid candidate (itself included); the running
maximum starts at 0 and is only replaced by a strictly greater total. -/
def selectRepresentativeQuestion (questions : List SMsg) : String :=
  match sortByLenDesc questions with
  | [] => ""
  | s0 :: rest =>
    match (s0 :: rest).filter (fun q => 5 < q.content.length) with
    | [] => s0.content
    | v0 :: vrest =>
      let valid := v0 :: vrest
      let simTotal := simTotalOf valid
      (valid.foldl
        (fun acc q => if acc.2 < simTotal q then (q.content, simTotal q) else acc)
        (v0.content, (0 : ℚ))).1

/-- `ChatQAProcessor._find_matching_answer` (lines 239–258): scan the answers
for the strictly-increasing running maximum of `calculate_context_match`
against the question; below the 0.3 threshold the empty string is returned.
(The source initialises `best_answer = None`; that value survives only when
the maximum is 0, in which case the threshold branch already returns `""`,
so the unreachable `None` is conflated with `""` here.) -/
def findMatchingAnswer (question : String) (answers : List SMsg) : String :=
  if answers = [] then ""
  else
    let res := answers.foldl
      (fun (acc : Option String × ℚ) a =>
        if acc.2 < calculate_context_match question a.content then
          (some a.content, calculate_context_match question a.content)
        else acc)
      ((none : Option String), (0 : ℚ))
    if res.2 < 3/10 then "" else res.1.getD ""

/-- `ChatQAProcessor._merge_session_messages` (lines 175–211): sort by time,
split by role, pick the representative question and the matching answer, and
produce at most one QA pair; empty selections yield `none`. -/
def mergeSession (messages : List SMsg) : Option QAPair :=
  if messages = [] then none
  else
    let ms := sortByTime messages
    let questions := questionsOf ms
    let answers := answersOf ms
    if questions = [] ∨ answers = [] then none
    else
      let representative_question := selectRepresentativeQuestion questions
      let matching_answer := findMatchingAnswer representative_question answers
      if representative_question = "" ∨ matching_answer = "" then none
      else
        some {
          customer_id := questions.head?.map (·.source)
          service_id := answers.head?.map (·.source)
          question := representative_question
          answer := matching_answer
          time := match ms with | [] => none | m :: _ => m.time
          session_id := none
          tags := extract_tags representative_question }

/-! ## The segmentation walk of `_process_qa_pairs` -/

/-- One input row, after the `str(...).strip()` coercions of lines 123–126:
`source` = `消息来源`, `content` = `聊天内容`, `time` = `消息时间` (`none` when
malformed), `session_id` = `会话ID` (`none` when the column is absent). -/
structure Row where
  source : String
  content : String
  time : Option Int
  session_id : Option String
deriving Repr, DecidableEq

/-- The loop state of `_process_qa_pairs`: accumulated pairs, the open
session's messages, `current_question` and `current_session_id`.
(`current_customer`/`current_service` are also assigned by the source but are
never read, and are omitted.) -/
structure WalkState where
  qa_pairs : List QAPair
  msgs : List SMsg
  current_question : Option String
  current_session_id : Option String
deriving Repr, DecidableEq

/-- The initial loop state. -/
def initState : WalkState :=
  { qa_pairs := [], msgs := [], current_question := none, current_session_id := none }

/-- The boundary test of line 129:
`current_session_id is not None and session_id != current_session_id`. -/
def sessionBoundary (st : WalkState) (row : Row) : Bool :=
  st.current_session_id.isSome && (row.session_id != st.current_session_id)

/-- Lines 129–138: when the boundary fires, merge and flush the open session
and reset the per-session state. -/
def flushIfBoundary (st : WalkState) (row : Row) : WalkState :=
  if sessionBoundary st row then
    { qa_pairs := st.qa_pairs ++ (mergeSession st.msgs).toList
      msgs := []
      current_question := none
      current_session_id := st.current_session_id }
  else st

/-- The body of the `for idx, row in df.iterrows()` loop (lines 119–165):
flush on boundary, update `current_session_id`, then dispatch on the sender
label — customer rows (label starting with `mImjj`) record a question when
the content is non-empty, agent rows (label containing `(` and `)`) record an
answer when a `current_question` exists, all other rows record nothing. -/
def stepRow (st : WalkState) (row : Row) : WalkState :=
  let st1 := flushIfBoundary st row
  let st2 := { st1 with current_session_id := row.session_id }
  if pyStartsWith row.source "mImjj" then
    let st3 := { st2 with current_question := some row.content }
    if row.content ≠ "" then
      { st3 with msgs := st3.msgs ++ [⟨MType.question, row.content, row.time, row.source⟩] }
    else st3
  else if row.source.data.contains '(' && row.source.data.contains ')' then
    if st2.current_question.isSome then
      { st2 with msgs := st2.msgs ++ [⟨MType.answer, row.content, row.time, row.source⟩] }
    else st2
  else st2

/-- `ChatQAProcessor._process_qa_pairs` (lines 109–173): fold the loop body
over the rows, then flush the final open session. -/
def processQAPairs (rows : List Row) : List QAPair :=
  let st := rows.foldl stepRow initState
  st.qa_pairs ++ (mergeSession st.msgs).toList

/-! ## Specification-shaped score characterisations

These definitions restate selection and scoring rules in the direct
"maximum / first element attaining it" style of the specification text; the
theorems below compare them with the implementation functions above. -/

/-- The maximum of `f` over a list, starting from the floor `c0` (the running
maxima of the source's scan loops start at 0). -/
def maxOver {α : Type} (f : α → ℚ) (c0 : ℚ) (l : List α) : ℚ :=
  l.foldl (fun m x => max m (f x)) c0

/-- The first element of the list on which `f` attains the value `M`. -/
def firstAttaining {α : Type} (f : α → ℚ) (M : ℚ) : List α → Option α
  | [] => none
  | x :: xs => if f x = M then some x else firstAttaining f M xs

/-- The representative-question rule in specification style: among the valid
(longer-than-5) candidates taken in length-descending order, the first one
attaining the maximal total similarity wins; with no valid candidate the
longest question is used. -/
def representativeSpec (questions : List SMsg) : String :=
  match sortByLenDesc questions with
  | [] => ""
  | s0 :: rest =>
    match (s0 :: rest).filter (fun q => 5 < q.content.length) with
    | [] => s0.content
    | v0 :: vrest =>
      let valid := v0 :: vrest
      let simTotal := simTotalOf valid
      ((firstAttaining simTotal (maxOver simTotal 0 valid) valid).map
        (fun q => q.content)).getD v0.content

/-- Token-set Jaccard similarity over the case-folded whitespace tokens, as
named by the specification's `lexical_similarity` description. -/
def jaccardSim (text1 text2 : String) : ℚ :=
  let words1 := wordsOf text1
  let words2 := wordsOf text2
  let intersection := (words1.filter (fun w => words2.contains w)).length
  let union := words1.length + (words2.filter (fun w => !words1.contains w)).length
  if union = 0 then 0 else (intersection : ℚ) / (union : ℚ)

/-- The count-based keyword-overlap ratio actually computed by the source:
tokens of either side that belong to the importance-weight table each count
1 (once per side), matched when the other side's token set contains them. -/
def keywordOverlapRatio (text1 text2 : String) : ℚ :=
  let words1 := wordsOf text1
  let words2 := wordsOf text2
  let t1key := words1.filter (fun w => importance_weights.any (fun p => p.1 == w))
  let t2key := words2.filter (fun w => importance_weights.any (fun p => p.1 == w))
  let total := t1key.length + t2key.length
  let matched :=
    (t1key.filter (fun w => words2.contains w)).length +
    (t2key.filter (fun w => words1.contains w)).length
  if total = 0 then 0 else (matched : ℚ) / (total : ℚ)

/-- The weight a token carries in the importance-weight table (0 if absent). -/
def weightOfToken (w : String) : ℚ :=
  ((importance_weights.filter (fun p => p.1 == w)).map (·.2)).sum

/-- The keyword-overlap ratio as the specification's words describe it — a
*weighted* ratio in which each qualifying token contributes its
importance-table weight instead of a unit count.  Stated for comparison with
the source's count-based ratio. -/
def specWeightedKeywordRatio (text1 text2 : String) : ℚ :=
  let words1 := wordsOf text1
  let words2 := wordsOf text2
  let t1key := words1.filter (fun w => importance_weights.any (fun p => p.1 == w))
  let t2key := words2.filter (fun w => importance_weights.any (fun p => p.1 == w))
  let totalW := (t1key.map weightOfToken).sum + (t2key.map weightOfToken).sum
  let matchedW :=
    ((t1key.filter (fun w => words2.contains w)).map weightOfToken).sum +
    ((t2key.filter (fun w => words1.contains w)).map weightOfToken).sum
  if totalW = 0 then 0 else matchedW / totalW

/-- Lexical similarity as the specification's words describe it: 0.6 times
Jaccard plus 0.4 times the *weighted* keyword-overlap ratio. -/
def specLexicalSimilarity (text1 text2 : String) : ℚ :=
  3/5 * jaccardSim text1 text2 + 2/5 * specWeightedKeywordRatio text1 text2

/-- The weight a tag carries in the per-tag weight table `keyword_weights`
(0 if absent). -/
def weightOfTag (t : String) : ℚ :=
  ((keyword_weights.filter (fun p => p.1 == t)).map (·.2)).sum

/-- The tag-overlap signal as the specification's words describe it: the sum
of per-tag weights of the tags common to both sides divided by the sum of
per-tag weights of the tags present on either side, zero when either side has
no tags.  Stated for comparison with the source's unweighted ratio. -/
def specWeightedTagOverlap (question answer : String) : ℚ :=
  let question_tags := extract_tags question
  let answer_tags := extract_tags answer
  if question_tags = [] ∨ answer_tags = [] then 0
  else
    let common := question_tags.filter (fun t => answer_tags.contains t)
    let union := question_tags ++ answer_tags.filter (fun t => !question_tags.contains t)
    if (union.map weightOfTag).sum = 0 then 0
    else (common.map weightOfTag).sum / (union.map weightOfTag).sum

/-! ## Session-content invariant predicates (for the segmentation walk) -/

/-- Does every answer in the list occur after at least one question?  `seen`
records whether a question has already occurred. -/
def answersAfterQ (seen : Bool) : List SMsg → Bool
  | [] => true
  | m :: rest =>
    if m.typ == MType.question then answersAfterQ true rest
    else seen && answersAfterQ seen rest

/-- Is there a question among the messages? -/
def hasQuestion (l : List SMsg) : Bool :=
  l.any (fun m => m.typ == MType.question)

/-- The session-content invariant: questions come from `mImjj`-prefixed
senders, answers from parenthesised senders, and every answer is preceded by
a question. -/
def sessionWellFormed (l : List SMsg) : Bool :=
  answersAfterQ false l &&
  l.all (fun m =>
    match m.typ with
    | MType.question => pyStartsWith m.source "mImjj"
    | MType.answer => m.source.data.contains '(' && m.source.data.contains ')')

/-- The strengthened loop invariant of the segmentation walk: a pending
`current_question` guarantees a recorded question, and the accumulated
session messages are well-formed. -/
def stateInv (st : WalkState) : Prop :=
  (st.current_question.isSome = true → hasQuestion st.msgs = true) ∧
  sessionWellFormed st.msgs = true

/-! ## Helper lemmas: running maxima and first-attaining scans -/

lemma maxOver_cons {α : Type} (f : α → ℚ) (c0 : ℚ) (x : α) (l : List α) :
    maxOver f c0 (x :: l) = maxOver f (max c0 (f x)) l := rfl

lemma le_maxOver {α : Type} (f : α → ℚ) :
    ∀ (l : List α) (c0 : ℚ), c0 ≤ maxOver f c0 l
  | [], c0 => le_refl c0
  | x :: xs, c0 =>
    le_trans (le_max_left c0 (f x)) (le_maxOver f xs (max c0 (f x)))

lemma mem_le_maxOver {α : Type} (f : α → ℚ) :
    ∀ (l : List α) (c0 : ℚ) (x : α), x ∈ l → f x ≤ maxOver f c0 l
  | [], _, _, h => absurd h (List.not_mem_nil _)
  | y :: ys, c0, x, h => by
    rcases List.mem_cons.mp h with h1 | h2
    · subst h1
      exact le_trans (le_max_right c0 (f x)) (le_maxOver f ys (max c0 (f x)))
    · exact mem_le_maxOver f ys (max c0 (f y)) x h2

lemma firstAttaining_cons {α : Type} (f : α → ℚ) (M : ℚ) (x : α) (xs : List α) :
    firstAttaining f M (x :: xs)
      = if f x = M then some x else firstAttaining f M xs := rfl

lemma maxOver_attained {α : Type} (f : α → ℚ) :
    ∀ (l : List α) (c0 : ℚ), c0 < maxOver f c0 l →
      ∃ x, firstAttaining f (maxOver f c0 l) l = some x ∧ f x = maxOver f c0 l
  | [], c0, h => absurd h (lt_irrefl c0)
  | x :: xs, c0, h => by
    rw [maxOver_cons] at h ⊢
    by_cases hfx : f x = maxOver f (max c0 (f x)) xs
    · exact ⟨x, by rw [firstAttaining_cons, if_pos hfx], hfx⟩
    · have hxle : f x ≤ maxOver f (max c0 (f x)) xs :=
        le_trans (le_max_right c0 (f x)) (le_maxOver f xs (max c0 (f x)))
      have hlt : max c0 (f x) < maxOver f (max c0 (f x)) xs :=
        max_lt h (lt_of_le_of_ne hxle hfx)
      obtain ⟨y, hy, hfy⟩ := maxOver_attained f xs (max c0 (f x)) hlt
      exact ⟨y, by rw [firstAttaining_cons, if_neg hfx, hy], hfy⟩

/-- The argmax-scan characterisation: a fold that replaces the running best
on a strictly greater score computes the running maximum together with the
first element attaining it (or keeps the initial payload when nothing
exceeds the floor `c0`). -/
lemma scan_foldl_spec {α β : Type} (f : α → ℚ) (g : α → β) :
    ∀ (l : List α) (b0 : β) (c0 : ℚ),
      l.foldl (fun acc x => if acc.2 < f x then (g x, f x) else acc) (b0, c0)
        = (if c0 < maxOver f c0 l then
             ((firstAttaining f (maxOver f c0 l) l).map g).getD b0
           else b0,
           maxOver f c0 l)
  | [], b0, c0 => by
    rw [List.foldl_nil, show maxOver f c0 [] = c0 from rfl, if_neg (lt_irrefl c0)]
  | x :: xs, b0, c0 => by
    rw [List.foldl_cons, maxOver_cons]
    by_cases hx : c0 < f x
    · have hstep : (if (b0, c0).2 < f x then (g x, f x) else (b0, c0)) = (g x, f x) :=
        if_pos hx
      rw [hstep, scan_foldl_spec f g xs (g x) (f x)]
      have hmax : max c0 (f x) = f x := max_eq_right (le_of_lt hx)
      rw [hmax]
      have hcM : c0 < maxOver f (f x) xs := lt_of_lt_of_le hx (le_maxOver f xs (f x))
      rw [if_pos hcM]
      by_cases hfx : f x = maxOver f (f x) xs
      · rw [if_neg (not_lt.mpr (le_of_eq hfx.symm)), firstAttaining_cons, if_pos hfx]
        rfl
      · have hlt : f x < maxOver f (f x) xs :=
          lt_of_le_of_ne (le_maxOver f xs (f x)) hfx
        rw [if_pos hlt, firstAttaining_cons, if_neg hfx]
        obtain ⟨y, hy, _⟩ := maxOver_attained f xs (f x) hlt
        rw [hy]
        rfl
    · have hstep : (if (b0, c0).2 < f x then (g x, f x) else (b0, c0)) = (b0, c0) :=
        if_neg hx
      rw [hstep, scan_foldl_spec f g xs b0 c0]
      have hmax : max c0 (f x) = c0 := max_eq_left (le_of_not_lt hx)
      rw [hmax]
      by_cases hcM : c0 < maxOver f c0 xs
      · have hfx : ¬ f x = maxOver f c0 xs := fun he =>
          hx (lt_of_lt_of_le hcM (le_of_eq he.symm))
        rw [if_pos hcM, if_pos hcM, firstAttaining_cons, if_neg hfx]
      · rw [if_neg hcM, if_neg hcM]

/-- Specialisation of the scan characterisation to a non-empty list whose
head is also the initial payload and whose scores at the head are
non-negative — the shape used by `_select_representative_question`. -/
lemma scan_first_eq {α β : Type} (f : α → ℚ) (g : α → β) (v0 : α) (rest : List α)
    (hnn : 0 ≤ f v0) :
    ((v0 :: rest).foldl
        (fun acc x => if acc.2 < f x then (g x, f x) else acc) (g v0, 0)).1
      = ((firstAttaining f (maxOver f 0 (v0 :: rest)) (v0 :: rest)).map g).getD (g v0) := by
  rw [scan_foldl_spec f g (v0 :: rest) (g v0) 0]
  dsimp only
  by_cases hM : (0 : ℚ) < maxOver f 0 (v0 :: rest)
  · rw [if_pos hM]
  · rw [if_neg hM]
    have h0 : maxOver f 0 (v0 :: rest) = 0 :=
      le_antisymm (not_lt.mp hM) (le_maxOver f (v0 :: rest) 0)
    have hfv0 : f v0 = 0 :=
      le_antisymm
        (h0 ▸ mem_le_maxOver f (v0 :: rest) 0 v0 (List.mem_cons_self v0 rest))
        hnn
    rw [h0, firstAttaining_cons, if_pos hfv0]
    rfl

/-! ## Helper lemmas: bounds of the score components -/

lemma natCast_div_nonneg (a b : ℕ) : 0 ≤ (a : ℚ) / (b : ℚ) :=
  div_nonneg (Nat.cast_nonneg a) (Nat.cast_nonneg b)

lemma natCast_div_le_one {a b : ℕ} (h : a ≤ b) : (a : ℚ) / (b : ℚ) ≤ 1 := by
  rcases Nat.eq_zero_or_pos b with hb | hb
  · subst hb
    have ha : a = 0 := Nat.le_zero.mp h
    subst ha
    norm_num
  · exact (div_le_one (by exact_mod_cast hb)).mpr (by exact_mod_cast h)

lemma jaccardSim_nonneg (t1 t2 : String) : 0 ≤ jaccardSim t1 t2 := by
  simp only [jaccardSim]
  split
  · exact le_refl 0
  · exact natCast_div_nonneg _ _

lemma jaccardSim_le_one (t1 t2 : String) : jaccardSim t1 t2 ≤ 1 := by
  simp only [jaccardSim]
  split
  · norm_num
  · exact natCast_div_le_one
      (le_trans (List.length_filter_le _ _) (Nat.le_add_right _ _))

lemma keywordOverlapRatio_nonneg (t1 t2 : String) : 0 ≤ keywordOverlapRatio t1 t2 := by
  simp only [keywordOverlapRatio]
  split
  · exact le_refl 0
  · exact natCast_div_nonneg _ _

lemma keywordOverlapRatio_le_one (t1 t2 : String) : keywordOverlapRatio t1 t2 ≤ 1 := by
  simp only [keywordOverlapRatio]
  split
  · norm_num
  · exact natCast_div_le_one
      (Nat.add_le_add (List.length_filter_le _ _) (List.length_filter_le _ _))

lemma wordsOf_empty : wordsOf "" = [] := rfl

/-- The guards of `calculate_semantic_similarity` collapse: it always equals
`0.6 * jaccard + 0.4 * count-based keyword ratio`. -/
lemma semantic_eq (t1 t2 : String) :
    calculate_semantic_similarity t1 t2
      = 3/5 * jaccardSim t1 t2 + 2/5 * keywordOverlapRatio t1 t2 := by
  simp only [calculate_semantic_similarity, jaccardSim, keywordOverlapRatio]
  by_cases h0 : t1 = "" ∨ t2 = ""
  · rw [if_pos h0]
    have hw : wordsOf t1 = [] ∨ wordsOf t2 = [] := by
      rcases h0 with h | h
      · exact Or.inl (by rw [h]; exact wordsOf_empty)
      · exact Or.inr (by rw [h]; exact wordsOf_empty)
    rcases hw with hw | hw <;> rw [hw] <;> simp
  · rw [if_neg h0]
    by_cases hu : (wordsOf t1).length
        + ((wordsOf t2).filter (fun w => !(wordsOf t1).contains w)).length = 0
    · rw [if_pos hu, if_pos hu]
      have h1 : (wordsOf t1).length = 0 := Nat.eq_zero_of_add_eq_zero_right hu
      have hw1 : wordsOf t1 = [] := List.length_eq_zero.mp h1
      rw [hw1]
      have h2 : ((wordsOf t2).filter (fun w => !(wordsOf t1).contains w)).length = 0 :=
        Nat.eq_zero_of_add_eq_zero_left hu
      rw [hw1] at h2
      simp only [List.contains_nil, Bool.not_false, List.filter_true] at h2
      have hw2 : wordsOf t2 = [] := List.length_eq_zero.mp h2
      rw [hw2]
      simp
    · rw [if_neg hu, if_neg hu]
      have hite : ∀ (T m : ℕ), (if 0 < T then (m : ℚ) / (T : ℚ) else 0)
          = (if T = 0 then 0 else (m : ℚ) / (T : ℚ)) := by
        intro T m
        rcases Nat.eq_zero_or_pos T with hT | hT
        · rw [if_neg (by rw [hT]; exact lt_irrefl 0), if_pos hT]
        · rw [if_pos hT, if_neg (Nat.pos_iff_ne_zero.mp hT)]
      rw [hite]

lemma semantic_nonneg (t1 t2 : String) : 0 ≤ calculate_semantic_similarity t1 t2 := by
  rw [semantic_eq]
  have h1 := jaccardSim_nonneg t1 t2
  have h2 := keywordOverlapRatio_nonneg t1 t2
  linarith

lemma semantic_le_one (t1 t2 : String) : calculate_semantic_similarity t1 t2 ≤ 1 := by
  rw [semantic_eq]
  have h1 := jaccardSim_le_one t1 t2
  have h2 := keywordOverlapRatio_le_one t1 t2
  linarith

lemma tag_match_score_nonneg (q a : String) : 0 ≤ tag_match_score q a := by
  simp only [tag_match_score]
  split
  · exact natCast_div_nonneg _ _
  · exact le_refl 0

lemma tag_match_score_le_one (q a : String) : tag_match_score q a ≤ 1 := by
  simp only [tag_match_score]
  split
  · exact natCast_div_le_one
      (le_trans (List.length_filter_le _ _) (le_max_left _ _))
  · norm_num

lemma keyword_match_score_nonneg (q a : String) : 0 ≤ keyword_match_score q a := by
  simp only [keyword_match_score]
  split
  · exact natCast_div_nonneg _ _
  · exact le_refl 0

lemma keyword_match_score_le_one (q a : String) : keyword_match_score q a ≤ 1 := by
  simp only [keyword_match_score]
  split
  · exact natCast_div_le_one
      (le_trans (List.length_filter_le _ _) (le_max_left _ _))
  · norm_num

lemma context_match_nonneg (q a : String) : 0 ≤ calculate_context_match q a := by
  have h1 := tag_match_score_nonneg q a
  have h2 := keyword_match_score_nonneg q a
  have h3 := semantic_nonneg q a
  simp only [calculate_context_match]
  linarith

lemma context_match_le_one (q a : String) : calculate_context_match q a ≤ 1 := by
  have h1 := tag_match_score_le_one q a
  have h2 := keyword_match_score_le_one q a
  have h3 := semantic_le_one q a
  have h4 := tag_match_score_nonneg q a
  have h5 := keyword_match_score_nonneg q a
  have h6 := semantic_nonneg q a
  simp only [calculate_context_match]
  linarith

/-! ## Helper lemmas: duplicate-freeness and symmetry of set computations -/

lemma wordsOf_nodup (t : String) : (wordsOf t).Nodup :=
  List.nodup_dedup _

lemma extract_tags_nodup (t : String) : (extract_tags t).Nodup := by
  simp only [extract_tags]
  exact List.Nodup.sublist
    (List.Sublist.map _ (List.filter_sublist _))
    (show (((tag_rules ++ special_tag_rules)).map (·.1)).Nodup by decide)

lemma categories_nodup (p : String × List String → Bool) :
    ((context_keywords.filter p).map (·.1)).Nodup :=
  List.Nodup.sublist
    (List.Sublist.map _ (List.filter_sublist _))
    (show ((context_keywords).map (·.1)).Nodup by decide)

lemma length_filter_contains_eq_card_inter (a b : List String) (ha : a.Nodup) :
    (a.filter (fun x => b.contains x)).length = (a.toFinset ∩ b.toFinset).card := by
  rw [← List.toFinset_card_of_nodup (ha.filter _), List.toFinset_filter]
  congr 1
  ext x
  simp [List.mem_toFinset]

lemma length_filter_contains_comm (l1 l2 : List String)
    (h1 : l1.Nodup) (h2 : l2.Nodup) :
    (l1.filter (fun x => l2.contains x)).length
      = (l2.filter (fun x => l1.contains x)).length := by
  rw [length_filter_contains_eq_card_inter l1 l2 h1,
    length_filter_contains_eq_card_inter l2 l1 h2, Finset.inter_comm]

lemma union_length_eq_card_union (a b : List String) (ha : a.Nodup) (hb : b.Nodup) :
    a.length + (b.filter (fun w => !a.contains w)).length
      = (a.toFinset ∪ b.toFinset).card := by
  rw [← List.toFinset_card_of_nodup ha, ← List.toFinset_card_of_nodup (hb.filter _),
    List.toFinset_filter]
  have hsd : b.toFinset.filter (fun w => (!a.contains w : Bool)) = b.toFinset \ a.toFinset := by
    ext x
    simp [List.mem_toFinset]
  rw [hsd, add_comm, Finset.card_sdiff_add_card, Finset.union_comm]

lemma union_length_comm (l1 l2 : List String) (h1 : l1.Nodup) (h2 : l2.Nodup) :
    l1.length + (l2.filter (fun w => !l1.contains w)).length
      = l2.length + (l1.filter (fun w => !l2.contains w)).length := by
  rw [union_length_eq_card_union l1 l2 h1 h2, union_length_eq_card_union l2 l1 h2 h1,
    Finset.union_comm]

lemma tag_match_score_comm (q a : String) : tag_match_score q a = tag_match_score a q := by
  simp only [tag_match_score]
  by_cases hc : extract_tags q ≠ [] ∨ extract_tags a ≠ []
  · rw [if_pos hc, if_pos (Or.symm hc),
      length_filter_contains_comm _ _ (extract_tags_nodup q) (extract_tags_nodup a),
      Nat.max_comm (extract_tags q).length (extract_tags a).length]
  · rw [if_neg hc, if_neg (fun h => hc (Or.symm h))]

lemma keyword_match_score_comm (q a : String) :
    keyword_match_score q a = keyword_match_score a q := by
  simp only [keyword_match_score]
  by_cases hc :
      (context_keywords.filter (fun c => c.2.any (fun k => containsSub q k))).map (·.1) ≠ [] ∨
      (context_keywords.filter (fun c => c.2.any (fun k => containsSub a k))).map (·.1) ≠ []
  · rw [if_pos hc, if_pos (Or.symm hc),
      length_filter_contains_comm _ _ (categories_nodup _) (categories_nodup _),
      Nat.max_comm
        ((context_keywords.filter (fun c => c.2.any (fun k => containsSub q k))).map (·.1)).length
        ((context_keywords.filter (fun c => c.2.any (fun k => containsSub a k))).map (·.1)).length]
  · rw [if_neg hc, if_neg (fun h => hc (Or.symm h))]

lemma jaccardSim_comm (t1 t2 : String) : jaccardSim t1 t2 = jaccardSim t2 t1 := by
  simp only [jaccardSim]
  rw [union_length_comm (wordsOf t1) (wordsOf t2) (wordsOf_nodup t1) (wordsOf_nodup t2),
    length_filter_contains_comm (wordsOf t1) (wordsOf t2) (wordsOf_nodup t1) (wordsOf_nodup t2)]

lemma keywordOverlapRatio_comm (t1 t2 : String) :
    keywordOverlapRatio t1 t2 = keywordOverlapRatio t2 t1 := by
  simp only [keywordOverlapRatio]
  rw [Nat.add_comm
      (((wordsOf t1).filter (fun w => importance_weights.any (fun p => p.1 == w))).length)
      (((wordsOf t2).filter (fun w => importance_weights.any (fun p => p.1 == w))).length),
    Nat.add_comm
      ((((wordsOf t1).filter (fun w => importance_weights.any (fun p => p.1 == w))).filter
          (fun w => (wordsOf t2).contains w)).length)
      ((((wordsOf t2).filter (fun w => importance_weights.any (fun p => p.1 == w))).filter
          (fun w => (wordsOf t1).contains w)).length)]

lemma semantic_comm (t1 t2 : String) :
    calculate_semantic_similarity t1 t2 = calculate_semantic_similarity t2 t1 := by
  rw [semantic_eq, semantic_eq, jaccardSim_comm, keywordOverlapRatio_comm]

/-! ## Helper lemmas: the session-content invariant of the walk -/

lemma hasQuestion_append (l l' : List SMsg) :
    hasQuestion (l ++ l') = (hasQuestion l || hasQuestion l') :=
  List.any_append

lemma answersAfterQ_cons (s : Bool) (m : SMsg) (l : List SMsg) :
    answersAfterQ s (m :: l)
      = if m.typ == MType.question then answersAfterQ true l
        else s && answersAfterQ s l := rfl

lemma hasQuestion_cons (m : SMsg) (l : List SMsg) :
    hasQuestion (m :: l) = ((m.typ == MType.question) || hasQuestion l) :=
  List.any_cons

lemma answersAfterQ_append (s : Bool) (l l' : List SMsg) :
    answersAfterQ s (l ++ l')
      = (answersAfterQ s l && answersAfterQ (s || hasQuestion l) l') := by
  induction l generalizing s with
  | nil => simp [answersAfterQ, hasQuestion]
  | cons m rest ih =>
    rw [List.cons_append, answersAfterQ_cons, answersAfterQ_cons, hasQuestion_cons]
    by_cases hm : m.typ == MType.question
    · rw [if_pos hm, if_pos hm, ih true, hm, Bool.true_or, Bool.or_true]
    · rw [if_neg hm, if_neg hm, ih s,
        show (m.typ == MType.question) = false from Bool.not_eq_true _ |>.mp hm,
        Bool.false_or, Bool.and_assoc]

lemma sessionWellFormed_nil : sessionWellFormed [] = true := rfl

lemma answersAfterQ_singleton (s : Bool) (m : SMsg) :
    answersAfterQ s [m] = (if m.typ == MType.question then true else s) := by
  rw [answersAfterQ_cons]
  by_cases hm : m.typ == MType.question
  · rw [if_pos hm, if_pos hm]
    rfl
  · rw [if_neg hm, if_neg hm, show answersAfterQ s [] = true from rfl, Bool.and_true]

lemma sessionWellFormed_append_question (l : List SMsg) (m : SMsg)
    (hm : m.typ = MType.question) (hsrc : pyStartsWith m.source "mImjj" = true)
    (h : sessionWellFormed l = true) : sessionWellFormed (l ++ [m]) = true := by
  simp only [sessionWellFormed, Bool.and_eq_true] at h ⊢
  constructor
  · rw [answersAfterQ_append, h.1, Bool.true_and, answersAfterQ_singleton, hm]
    rfl
  · rw [List.all_append]
    simp only [Bool.and_eq_true]
    refine ⟨h.2, ?_⟩
    simp only [List.all_cons, List.all_nil, Bool.and_true, hm]
    exact hsrc

lemma sessionWellFormed_append_answer (l : List SMsg) (m : SMsg)
    (hm : m.typ = MType.answer)
    (hsrc : (m.source.data.contains '(' && m.source.data.contains ')') = true)
    (hq : hasQuestion l = true)
    (h : sessionWellFormed l = true) : sessionWellFormed (l ++ [m]) = true := by
  simp only [sessionWellFormed, Bool.and_eq_true] at h ⊢
  constructor
  · rw [answersAfterQ_append, h.1, Bool.true_and, answersAfterQ_singleton, hm,
      if_neg (show ¬ (MType.answer == MType.question) = true by decide),
      hq, Bool.or_true]
  · rw [List.all_append]
    simp only [Bool.and_eq_true]
    refine ⟨h.2, ?_⟩
    simp only [List.all_cons, List.all_nil, Bool.and_true, hm]
    exact hsrc

lemma stateInv_init : stateInv initState := by
  constructor
  · intro h
    simp [initState] at h
  · rfl

lemma stateInv_flush (st : WalkState) (row : Row) (h : stateInv st) :
    stateInv (flushIfBoundary st row) := by
  unfold flushIfBoundary
  split
  · constructor
    · intro hq
      simp at hq
    · exact sessionWellFormed_nil
  · exact h

lemma stepRow_preserves_inv (st : WalkState) (row : Row)
    (hc : row.content ≠ "") (h : stateInv st) : stateInv (stepRow st row) := by
  have h1 : stateInv (flushIfBoundary st row) := stateInv_flush st row h
  simp only [stepRow]
  by_cases hcust : pyStartsWith row.source "mImjj" = true
  · rw [if_pos hcust, if_pos hc]
    constructor
    · intro _
      rw [hasQuestion_append,
        show hasQuestion [(⟨MType.question, row.content, row.time, row.source⟩ : SMsg)]
          = true from rfl,
        Bool.or_true]
    · exact sessionWellFormed_append_question _ _ rfl hcust h1.2
  · rw [if_neg hcust]
    by_cases hag : (row.source.data.contains '(' && row.source.data.contains ')') = true
    · rw [if_pos hag]
      by_cases hq : (flushIfBoundary st row).current_question.isSome = true
      · rw [if_pos hq]
        constructor
        · intro _
          rw [hasQuestion_append, h1.1 hq, Bool.true_or]
        · exact sessionWellFormed_append_answer _ _ rfl hag (h1.1 hq) h1.2
      · rw [if_neg hq]
        exact h1
    · rw [if_neg hag]
      exact h1

lemma foldl_preserves_inv :
    ∀ (rows : List Row) (st : WalkState), stateInv st →
      (∀ r ∈ rows, r.content ≠ "") → stateInv (rows.foldl stepRow st)
  | [], st, h, _ => h
  | r :: rest, st, h, hall => by
    rw [List.foldl_cons]
    exact foldl_preserves_inv rest (stepRow st r)
      (stepRow_preserves_inv st r (hall r (List.mem_cons_self r rest)) h)
      (fun x hx => hall x (List.mem_cons_of_mem r hx))

/-! ## Helper lemmas: answer selection and session merging -/

lemma findMatchingAnswer_eq (question : String) (answers : List SMsg) :
    findMatchingAnswer question answers
      = if maxOver (fun a => calculate_context_match question a.content) 0 answers < 3/10
        then ""
        else ((firstAttaining (fun a => calculate_context_match question a.content)
                (maxOver (fun a => calculate_context_match question a.content) 0 answers)
                answers).map (fun a => a.content)).getD "" := by
  by_cases hnil : answers = []
  · subst hnil
    rw [show findMatchingAnswer question [] = "" from rfl,
      show maxOver (fun a : SMsg => calculate_context_match question a.content) 0 [] = 0
        from rfl,
      if_pos (by norm_num : (0 : ℚ) < 3/10)]
  · simp only [findMatchingAnswer, if_neg hnil]
    rw [scan_foldl_spec (fun a : SMsg => calculate_context_match question a.content)
        (fun a : SMsg => (some a.content : Option String)) answers none 0]
    dsimp only
    by_cases hlt : maxOver (fun a : SMsg => calculate_context_match question a.content)
        0 answers < 3/10
    · rw [if_pos hlt, if_pos hlt]
    · rw [if_neg hlt, if_neg hlt]
      have hpos : (0 : ℚ) < maxOver
          (fun a : SMsg => calculate_context_match question a.content) 0 answers :=
        lt_of_lt_of_le (by norm_num) (not_lt.mp hlt)
      rw [if_pos hpos]
      obtain ⟨a, ha, _⟩ := maxOver_attained
        (fun a : SMsg => calculate_context_match question a.content) answers 0 hpos
      rw [ha]
      rfl

lemma findMatchingAnswer_below (question : String) (answers : List SMsg)
    (h : maxOver (fun a => calculate_context_match question a.content) 0 answers < 3/10) :
    findMatchingAnswer question answers = "" := by
  rw [findMatchingAnswer_eq, if_pos h]

lemma mergeSession_below (msgs : List SMsg)
    (h : maxOver (fun a => calculate_context_match
            (selectRepresentativeQuestion (questionsOf (sortByTime msgs))) a.content) 0
          (answersOf (sortByTime msgs)) < 3/10) :
    mergeSession msgs = none := by
  simp only [mergeSession]
  by_cases h0 : msgs = []
  · rw [if_pos h0]
  · rw [if_neg h0]
    by_cases h1 : questionsOf (sortByTime msgs) = [] ∨ answersOf (sortByTime msgs) = []
    · rw [if_pos h1]
    · rw [if_neg h1]
      rw [findMatchingAnswer_below _ _ h, if_pos (Or.inr rfl)]

lemma mem_insertByTime (x m : SMsg) (l : List SMsg) :
    x ∈ insertByTime m l ↔ x = m ∨ x ∈ l := by
  induction l with
  | nil => simp [insertByTime]
  | cons y ys ih =>
    simp only [insertByTime]
    split
    · simp only [List.mem_cons, ih]
      tauto
    · simp [List.mem_cons]

lemma mem_sortByTime (x : SMsg) (l : List SMsg) :
    x ∈ sortByTime l ↔ x ∈ l := by
  induction l with
  | nil => simp [sortByTime]
  | cons y ys ih =>
    simp only [sortByTime, mem_insertByTime, ih, List.mem_cons]

lemma filter_sortByTime_eq_nil (l : List SMsg) (p : SMsg → Bool)
    (h : l.filter p = []) : (sortByTime l).filter p = [] := by
  rw [List.filter_eq_nil_iff] at h ⊢
  intro a ha
  exact h a ((mem_sortByTime a l).mp ha)

lemma tag_match_score_zero (q a : String)
    (h : extract_tags q = [] ∨ extract_tags a = []) : tag_match_score q a = 0 := by
  simp only [tag_match_score]
  rcases h with h | h
  · rw [h]
    split <;> simp
  · rw [h]
    split <;> simp [List.contains_nil]

lemma stepRow_session_id (st : WalkState) (r : Row) :
    (stepRow st r).current_session_id = r.session_id := by
  simp only [stepRow]
  by_cases h1 : pyStartsWith r.source "mImjj" = true
  · rw [if_pos h1]
    by_cases h2 : r.content ≠ ""
    · rw [if_pos h2]
    · rw [if_neg h2]
  · rw [if_neg h1]
    by_cases h3 : (r.source.data.contains '(' && r.source.data.contains ')') = true
    · rw [if_pos h3]
      by_cases h4 : ({ flushIfBoundary st r with
          current_session_id := r.session_id } : WalkState).current_question.isSome = true
      · rw [if_pos h4]
      · rw [if_neg h4]
    · rw [if_neg h3]

/-! ## Claim theorems -/

/-- Claim C1, counterexample: with a constant explicit session key, messages
at t = 0, 10, 45 minutes do **not** split at the 35-minute gap (timeout 30):
the boundary test is false at the third message although the gap exceeds the
timeout, and after the whole walk all three messages sit in one still-open
session accumulation (the claim predicts two sessions {0,10} and {45}). -/
theorem c1_gap_no_boundary_cex :
    sessionBoundary
        (stepRow (stepRow initState
            ⟨"mImjjA", "退款怎么办理", some 0, some "s"⟩)
            ⟨"mImjjA", "余额没有变化", some 10, some "s"⟩)
        ⟨"mImjjA", "现在怎么样了", some 45, some "s"⟩ = false
      ∧ ((45 : ℤ) - 10 > 30)
      ∧ ([(⟨"mImjjA", "退款怎么办理", some 0, some "s"⟩ : Row),
          ⟨"mImjjA", "余额没有变化", some 10, some "s"⟩,
          ⟨"mImjjA", "现在怎么样了", some 45, some "s"⟩].foldl
            stepRow initState).msgs.length = 3
      ∧ ([(⟨"mImjjA", "退款怎么办理", some 0, some "s"⟩ : Row),
          ⟨"mImjjA", "余额没有变化", some 10, some "s"⟩,
          ⟨"mImjjA", "现在怎么样了", some 45, some "s"⟩].foldl
            stepRow initState).qa_pairs = [] := by
  refine ⟨by decide, by decide, by decide, by decide⟩

/-- Claim C1 (amended): in the segmentation walk a new session starts at a
message exactly when the explicit session key changes from the previous
message (the inter-message time gap is never consulted; the gap rule lives
only in the unused helper `is_new_session`); in particular two messages one
minute apart with different explicit session keys do fall into separate
sessions. -/
theorem c1_session_boundary_key_only :
    (∀ r1 r2 : Row, sessionBoundary (stepRow initState r1) r2
        = (r1.session_id.isSome && (r2.session_id != r1.session_id)))
      ∧ sessionBoundary
          (stepRow initState ⟨"mImjjA", "请问能退货吗", some 0, some "a"⟩)
          ⟨"mImjjA", "有人在吗请回复", some 60, some "b"⟩ = true := by
  constructor
  · intro r1 r2
    unfold sessionBoundary
    rw [stepRow_session_id]
  · decide

/-- Claim C5, counterexample: a message whose timestamp is malformed (`none`)
does **not** make the boundary decision true in the segmentation walk — with
an unchanged session key it is merged into the same accumulation instead of
starting a new session. -/
theorem c5_malformed_time_no_boundary_cex :
    sessionBoundary
        (stepRow initState ⟨"mImjjA", "请问能退货吗", some 0, some "s"⟩)
        ⟨"mImjjA", "有人在吗请回复", none, some "s"⟩ = false
      ∧ ([(⟨"mImjjA", "请问能退货吗", some 0, some "s"⟩ : Row),
          ⟨"mImjjA", "有人在吗请回复", none, some "s"⟩].foldl
            stepRow initState).msgs.length = 2 := by
  refine ⟨by decide, by decide⟩

/-- Claim C5 (amended): the segmentation walk never raises on (and never even
inspects) timestamps — its boundary decision is invariant under changing a
row's timestamp — while the unused helper `DataCleaner.is_new_session`
returns true whenever either argument is not a well-formed datetime and
computes the minute gap only when both are well-formed. -/
theorem c5_timestamp_fail_safe :
    (∀ (st : WalkState) (r : Row) (t1 t2 : Option Int),
        sessionBoundary st ⟨r.source, r.content, t1, r.session_id⟩
          = sessionBoundary st ⟨r.source, r.content, t2, r.session_id⟩)
      ∧ (∀ (t : Option Int) (m : Int), is_new_session none t m = true)
      ∧ (∀ (t : Option Int) (m : Int), is_new_session t none m = true)
      ∧ (∀ (c l m : Int),
          is_new_session (some c) (some l) m
            = decide ((((c - l : Int)) : ℚ) / 60 > (m : ℚ))) := by
  refine ⟨fun st r t1 t2 => rfl, fun t m => rfl, fun t m => ?_, fun c l m => rfl⟩
  cases t <;> rfl

/-- Claim C7: `calculate_context_match` is total with values in [0, 1], and
degenerate inputs contribute 0 — a side with no tags zeroes the tag
component, an empty text zeroes the lexical component. -/
theorem c7_context_match_total_bounded (q a : String) :
    (0 ≤ calculate_context_match q a ∧ calculate_context_match q a ≤ 1)
      ∧ ((extract_tags q = [] ∨ extract_tags a = []) → tag_match_score q a = 0)
      ∧ ((q = "" ∨ a = "") → calculate_semantic_similarity q a = 0) :=
  ⟨⟨context_match_nonneg q a, context_match_le_one q a⟩,
   tag_match_score_zero q a,
   fun h => by simp only [calculate_semantic_similarity, if_pos h]⟩

/-- Witness for C7 at concrete degenerate inputs. -/
theorem c7_context_match_total_bounded_witness :
    (extract_tags "你好" = [] ∨ extract_tags "退款" = [])
      ∧ tag_match_score "你好" "退款" = 0
      ∧ ("" = "" ∨ "退款" = "") ∧ calculate_semantic_similarity "" "退款" = 0
      ∧ 0 ≤ calculate_context_match "你好" "退款" :=
  ⟨Or.inl (by decide),
   (c7_context_match_total_bounded "你好" "退款").2.1 (Or.inl (by decide)),
   Or.inl rfl,
   (c7_context_match_total_bounded "" "退款").2.2 (Or.inl rfl),
   (c7_context_match_total_bounded "你好" "退款").1.1⟩

/-- Claim C8: a session lacking customer messages or lacking agent messages
yields no QA pair, and a session never yields more than one QA pair. -/
theorem c8_no_pair_missing_role (msgs : List SMsg) :
    ((msgs.filter (fun m => m.typ == MType.question) = []
        ∨ msgs.filter (fun m => m.typ == MType.answer) = []) →
      mergeSession msgs = none)
      ∧ (mergeSession msgs).toList.length ≤ 1 := by
  constructor
  · intro h
    simp only [mergeSession]
    by_cases h0 : msgs = []
    · rw [if_pos h0]
    · rw [if_neg h0]
      have hqa : questionsOf (sortByTime msgs) = [] ∨ answersOf (sortByTime msgs) = [] := by
        rcases h with h | h
        · exact Or.inl (filter_sortByTime_eq_nil msgs _ h)
        · exact Or.inr (filter_sortByTime_eq_nil msgs _ h)
      rw [if_pos hqa]
  · cases mergeSession msgs <;> simp

/-- Witness for C8: a session with a lone customer question yields no pair. -/
theorem c8_no_pair_missing_role_witness :
    ([(⟨MType.question, "退款怎么办理", some 0, "mImjjA"⟩ : SMsg)].filter
        (fun m => m.typ == MType.question) = []
      ∨ [(⟨MType.question, "退款怎么办理", some 0, "mImjjA"⟩ : SMsg)].filter
        (fun m => m.typ == MType.answer) = [])
      ∧ mergeSession [(⟨MType.question, "退款怎么办理", some 0, "mImjjA"⟩ : SMsg)] = none :=
  ⟨Or.inr (by decide),
   (c8_no_pair_missing_role [⟨MType.question, "退款怎么办理", some 0, "mImjjA"⟩]).1
     (Or.inr (by decide))⟩

/-- Claim C10: the context-match score is symmetric in its two arguments. -/
theorem c10_context_match_symm (q a : String) :
    calculate_context_match q a = calculate_context_match a q := by
  simp only [calculate_context_match]
  rw [tag_match_score_comm q a, keyword_match_score_comm q a, semantic_comm q a]

/-- Claim C2, counterexample: two questions in time order with equal total
similarity scores (each scores only against itself; the cross scores are 0):
the implementation selects the *longer, later* question "cc dddd", not the
earlier "aa bbb" that time-order tie-breaking would require, because the
candidates are scanned in length-descending order. -/
theorem c2_time_order_tie_break_cex :
    selectRepresentativeQuestion
        [⟨MType.question, "aa bbb", some 0, "mImjjA"⟩,
         ⟨MType.question, "cc dddd", some 1, "mImjjA"⟩] = "cc dddd"
      ∧ calculate_semantic_similarity "aa bbb" "aa bbb"
          + calculate_semantic_similarity "aa bbb" "cc dddd"
        = calculate_semantic_similarity "cc dddd" "cc dddd"
          + calculate_semantic_similarity "cc dddd" "aa bbb"
      ∧ ("cc dddd" : String) ≠ "aa bbb" :=
  ⟨by with_unfolding_all decide, by with_unfolding_all decide, by decide⟩

/-- Claim C2 (amended): representative-question selection filters to cleaned
length > 5 (falling back to the longest question), and among the filtered
candidates — taken in length-descending order, not time order — picks the
first one attaining the maximal sum of pairwise similarities over the
filtered set (self-comparison included). -/
theorem c2_representative_selection (questions : List SMsg) :
    selectRepresentativeQuestion questions = representativeSpec questions := by
  unfold selectRepresentativeQuestion representativeSpec
  cases hs : sortByLenDesc questions with
  | nil => rfl
  | cons s0 rest =>
    dsimp only
    cases hv : (s0 :: rest).filter (fun q => 5 < q.content.length) with
    | nil => rfl
    | cons v0 vrest =>
      dsimp only
      refine scan_first_eq (simTotalOf (v0 :: vrest))
        (fun q : SMsg => q.content) v0 vrest ?_
      apply List.sum_nonneg
      intro x hx
      obtain ⟨o, _, rfl⟩ := List.mem_map.mp hx
      exact semantic_nonneg _ _

/-- Claim C3, counterexample: for question "支付密码" (tags 支付问题 and
账户问题) and answer "支付" (tag 支付问题), the implementation's tag-overlap
signal is the unweighted ratio 1/2, while the specified weighted formula
(weights 1.2 and 1.3, common weight over union weight) gives 12/25. -/
theorem c3_weighted_tag_overlap_cex :
    tag_match_score "支付密码" "支付" = 1/2
      ∧ specWeightedTagOverlap "支付密码" "支付" = 12/25
      ∧ (1/2 : ℚ) ≠ 12/25 :=
  ⟨by with_unfolding_all decide, by with_unfolding_all decide, by norm_num⟩

/-- Claim C3 (amended): the tag-overlap component equals the *unweighted*
ratio — the number of tags common to both sides divided by the larger of the
two tag-set sizes (the per-tag weight table is never consulted) — and is 0
whenever either side has no tags. -/
theorem c3_tag_overlap_unweighted (q a : String) :
    tag_match_score q a
        = (if extract_tags q = [] ∧ extract_tags a = [] then 0
           else (((extract_tags q).toFinset ∩ (extract_tags a).toFinset).card : ℚ)
                / ((max (extract_tags q).toFinset.card (extract_tags a).toFinset.card : ℕ) : ℚ))
      ∧ ((extract_tags q = [] ∨ extract_tags a = []) → tag_match_score q a = 0) := by
  constructor
  · simp only [tag_match_score]
    by_cases hc : extract_tags q ≠ [] ∨ extract_tags a ≠ []
    · rw [if_pos hc, if_neg (by tauto)]
      rw [List.toFinset_card_of_nodup (extract_tags_nodup q),
        List.toFinset_card_of_nodup (extract_tags_nodup a)]
      congr 1
      exact_mod_cast
        length_filter_contains_eq_card_inter _ _ (extract_tags_nodup q)
    · rw [if_neg hc, if_pos (by tauto)]
  · exact tag_match_score_zero q a

/-- Witness for C3's amended zero clause at a concrete tagless text. -/
theorem c3_tag_overlap_unweighted_witness :
    (extract_tags "早上好" = [] ∨ extract_tags "支付" = [])
      ∧ tag_match_score "早上好" "支付" = 0 :=
  ⟨Or.inl (by decide),
   (c3_tag_overlap_unweighted "早上好" "支付").2 (Or.inl (by decide))⟩

/-- Claim C4: with a representative question fixed, the answer scan returns
the first answer attaining the maximal context-match score; when the maximal
score is below the 0.3 threshold, the empty answer is returned and the
session yields no QA pair. -/
theorem c4_matching_answer_threshold (question : String) (answers : List SMsg)
    (_hne : answers ≠ []) :
    (maxOver (fun x => calculate_context_match question x.content) 0 answers < 3/10 →
        findMatchingAnswer question answers = "")
      ∧ (∀ x ∈ answers, calculate_context_match question x.content
          ≤ maxOver (fun x => calculate_context_match question x.content) 0 answers)
      ∧ (3/10 ≤ maxOver (fun x => calculate_context_match question x.content) 0 answers →
          ∃ x, firstAttaining (fun x => calculate_context_match question x.content)
                 (maxOver (fun x => calculate_context_match question x.content) 0 answers)
                 answers = some x
            ∧ findMatchingAnswer question answers = x.content)
      ∧ (∀ msgs : List SMsg,
          maxOver (fun x => calculate_context_match
              (selectRepresentativeQuestion (questionsOf (sortByTime msgs))) x.content) 0
            (answersOf (sortByTime msgs)) < 3/10 →
          mergeSession msgs = none) := by
  refine ⟨findMatchingAnswer_below question answers,
    fun x hx => mem_le_maxOver _ answers 0 x hx, ?_,
    fun msgs h => mergeSession_below msgs h⟩
  intro hge
  have hpos : (0 : ℚ) < maxOver
      (fun x => calculate_context_match question x.content) 0 answers :=
    lt_of_lt_of_le (show (0:ℚ) < 3/10 by norm_num) hge
  obtain ⟨y, hy, _⟩ := maxOver_attained
    (fun x : SMsg => calculate_context_match question x.content) answers 0 hpos
  refine ⟨y, hy, ?_⟩
  rw [findMatchingAnswer_eq, if_neg (not_lt.mpr hge), hy]
  rfl

/-- Witness for C4 at a one-answer session whose score is 1 (≥ 0.3). -/
theorem c4_matching_answer_threshold_witness :
    ([(⟨MType.answer, "退款", some 0, "客服(1)"⟩ : SMsg)] ≠ [])
      ∧ ((maxOver (fun x => calculate_context_match "退款" x.content) 0
            [(⟨MType.answer, "退款", some 0, "客服(1)"⟩ : SMsg)] < 3/10 →
          findMatchingAnswer "退款" [(⟨MType.answer, "退款", some 0, "客服(1)"⟩ : SMsg)] = "")
        ∧ (∀ x ∈ [(⟨MType.answer, "退款", some 0, "客服(1)"⟩ : SMsg)],
            calculate_context_match "退款" x.content
              ≤ maxOver (fun x => calculate_context_match "退款" x.content) 0
                  [(⟨MType.answer, "退款", some 0, "客服(1)"⟩ : SMsg)])
        ∧ (3/10 ≤ maxOver (fun x => calculate_context_match "退款" x.content) 0
              [(⟨MType.answer, "退款", some 0, "客服(1)"⟩ : SMsg)] →
            ∃ x, firstAttaining (fun x => calculate_context_match "退款" x.content)
                   (maxOver (fun x => calculate_context_match "退款" x.content) 0
                     [(⟨MType.answer, "退款", some 0, "客服(1)"⟩ : SMsg)])
                   [(⟨MType.answer, "退款", some 0, "客服(1)"⟩ : SMsg)] = some x
              ∧ findMatchingAnswer "退款"
                  [(⟨MType.answer, "退款", some 0, "客服(1)"⟩ : SMsg)] = x.content)
        ∧ (∀ msgs : List SMsg,
            maxOver (fun x => calculate_context_match
                (selectRepresentativeQuestion (questionsOf (sortByTime msgs))) x.content) 0
              (answersOf (sortByTime msgs)) < 3/10 →
            mergeSession msgs = none)) :=
  ⟨by decide,
   c4_matching_answer_threshold "退款"
     [(⟨MType.answer, "退款", some 0, "客服(1)"⟩ : SMsg)] (by decide)⟩

/-- Claim C6, counterexample: on texts "etc x" and "etc 支付" the
implementation's lexical similarity is 7/15 (count-based keyword ratio 2/3),
while the specified weighted keyword ratio (weights 2.0 and 1.8) would give
69/145. -/
theorem c6_weighted_keyword_ratio_cex :
    calculate_semantic_similarity "etc x" "etc 支付" = 7/15
      ∧ specLexicalSimilarity "etc x" "etc 支付" = 69/145
      ∧ (7/15 : ℚ) ≠ 69/145 :=
  ⟨by with_unfolding_all decide, by with_unfolding_all decide, by norm_num⟩

/-- Claim C6 (amended): lexical similarity equals 0.6 × token-set Jaccard
plus 0.4 × a *count-based* keyword-overlap ratio over tokens present in the
importance-weight table (the weight values themselves are unused), and the
keyword term is 0 when no token from either text is in the table. -/
theorem c6_lexical_similarity_decomposition (t1 t2 : String) :
    calculate_semantic_similarity t1 t2
        = 3/5 * jaccardSim t1 t2 + 2/5 * keywordOverlapRatio t1 t2
      ∧ ((wordsOf t1).filter (fun w => importance_weights.any (fun p => p.1 == w)) = [] →
          (wordsOf t2).filter (fun w => importance_weights.any (fun p => p.1 == w)) = [] →
          keywordOverlapRatio t1 t2 = 0) := by
  refine ⟨semantic_eq t1 t2, fun h1 h2 => ?_⟩
  simp only [keywordOverlapRatio, h1, h2]
  simp

/-- Witness for C6 at concrete texts with no importance-table tokens. -/
theorem c6_lexical_similarity_decomposition_witness :
    ((wordsOf "你好").filter (fun w => importance_weights.any (fun p => p.1 == w)) = [])
      ∧ ((wordsOf "谢谢").filter (fun w => importance_weights.any (fun p => p.1 == w)) = [])
      ∧ keywordOverlapRatio "你好" "谢谢" = 0
      ∧ calculate_semantic_similarity "你好" "谢谢"
          = 3/5 * jaccardSim "你好" "谢谢" + 2/5 * keywordOverlapRatio "你好" "谢谢" :=
  ⟨by decide, by decide,
   (c6_lexical_similarity_decomposition "你好" "谢谢").2 (by decide) (by decide),
   (c6_lexical_similarity_decomposition "你好" "谢谢").1⟩

/-- Claim C9: over any cleaned row stream (all contents non-empty), the
accumulated session message list stays well-formed — every question entry has
an `mImjj`-prefixed sender, every answer entry a parenthesised sender, and
every answer is recorded only after a question has been recorded in the
current accumulation; a row whose sender neither starts with `mImjj` nor
contains both parentheses adds nothing to the accumulation and contributes no
message to any emitted QA pair. -/
theorem c9_session_content_invariant :
    (∀ rows : List Row, (∀ r ∈ rows, r.content ≠ "") →
        sessionWellFormed ((rows.foldl stepRow initState).msgs) = true)
      ∧ (∀ (st : WalkState) (r : Row),
          pyStartsWith r.source "mImjj" = false →
          (r.source.data.contains '(' && r.source.data.contains ')') = false →
          (stepRow st r).msgs = (if sessionBoundary st r then [] else st.msgs)
            ∧ (stepRow st r).qa_pairs
                = st.qa_pairs ++ (if sessionBoundary st r
                    then (mergeSession st.msgs).toList else [])) := by
  constructor
  · intro rows h
    exact (foldl_preserves_inv rows initState stateInv_init h).2
  · intro st r h1 h2
    simp only [stepRow]
    rw [if_neg (show ¬ pyStartsWith r.source "mImjj" = true by
          rw [h1]; exact Bool.false_ne_true),
      if_neg (show ¬ (r.source.data.contains '(' && r.source.data.contains ')') = true by
          rw [h2]; exact Bool.false_ne_true)]
    unfold flushIfBoundary
    by_cases hb : sessionBoundary st r = true
    · rw [if_pos hb, if_pos hb, if_pos hb]
      exact ⟨rfl, rfl⟩
    · rw [if_neg hb, if_neg hb, if_neg hb]
      exact ⟨rfl, (List.append_nil _).symm⟩

/-- Witness for C9: a concrete customer-then-agent stream, and a concrete
system row that records nothing. -/
theorem c9_session_content_invariant_witness :
    (∀ r ∈ [(⟨"mImjjA", "退款怎么办理", some 0, some "s"⟩ : Row),
            ⟨"客服(1)", "已经处理好了", some 1, some "s"⟩], r.content ≠ "")
      ∧ sessionWellFormed
          (([(⟨"mImjjA", "退款怎么办理", some 0, some "s"⟩ : Row),
             ⟨"客服(1)", "已经处理好了", some 1, some "s"⟩].foldl
               stepRow initState).msgs) = true
      ∧ pyStartsWith "system" "mImjj" = false
      ∧ (("system" : String).data.contains '(' && ("system" : String).data.contains ')')
          = false
      ∧ (stepRow initState ⟨"system", "x", none, none⟩).msgs
          = (if sessionBoundary initState ⟨"system", "x", none, none⟩ then []
             else initState.msgs) :=
  ⟨by decide,
   c9_session_content_invariant.1
     [⟨"mImjjA", "退款怎么办理", some 0, some "s"⟩,
      ⟨"客服(1)", "已经处理好了", some 1, some "s"⟩] (by decide),
   by decide, by decide,
   (c9_session_content_invariant.2 initState ⟨"system", "x", none, none⟩
     (by decide) (by decide)).1⟩

end Datawash
